import Mathlib

/-!
Verification of the crush MCP OAuth subsystem: a shallow embedding of the
token store, discovery, PKCE, authorization-URL assembly, config validation,
callback latch, token provider and OAuth HTTP middleware, with theorems
settling the specification claims.
-/

namespace Crush

/-! ## Token store (token_store.go)

`MCPOAuthData` holds OAuth tokens and client credentials for an MCP server.
The store file is modelled as either missing, present-but-unparseable, or a
parsed JSON object, i.e. an association list from server name to entry. -/

structure MCPOAuthData where
  accessToken : String
  refreshToken : String
  expiresIn : Int
  expiresAt : Int
  clientID : String
  clientSecret : String
deriving Repr, DecidableEq

/-- Content of the persisted `mcp.json` file. -/
inductive FileContent where
  | missing
  | corrupt
  | valid (entries : List (String × MCPOAuthData))
deriving Repr, DecidableEq

/-- Filesystem state seen by the token store: whether the parent data
directory exists, and the content of the store file. -/
structure FS where
  dirExists : Bool
  file : FileContent
deriving Repr, DecidableEq

/-- `store[mcpName] = oauthData` on the parsed JSON object: replace the
binding if the key is present, otherwise add it. -/
def setEntry (name : String) (e : MCPOAuthData) :
    List (String × MCPOAuthData) → List (String × MCPOAuthData)
  | [] => [(name, e)]
  | (k, v) :: rest =>
      if k = name then (k, e) :: rest else (k, v) :: setEntry name e rest

/-- `store[mcpName]` lookup on the parsed JSON object. -/
def lookupEntry (name : String) :
    List (String × MCPOAuthData) → Option MCPOAuthData
  | [] => none
  | (k, v) :: rest => if k = name then some v else lookupEntry name rest

inductive StoreErr where
  | readFailed
  | parseFailed
deriving Repr, DecidableEq

/-- `TokenStore.Load`: returns the entry for `mcpName`, or `none` if the file
does not exist or has no such entry; an error if the file exists but cannot
be parsed. -/
def TokenStore.Load (mcpName : String) (fs : FS) :
    Except StoreErr (Option MCPOAuthData) :=
  match fs.file with
  | .missing => .ok none
  | .corrupt => .error .parseFailed
  | .valid m => .ok (lookupEntry mcpName m)

/-- `TokenStore.Save`: read the current file (empty map if absent; error if
unparseable, in which case nothing is written), replace the entry under
`mcpName`, create the parent directory, write the file back. The returned
`FS` is the resulting filesystem state (unchanged when an error occurred
before the write). -/
def TokenStore.Save (mcpName : String) (oauthData : MCPOAuthData) (fs : FS) :
    FS × Option StoreErr :=
  match fs.file with
  | .corrupt => (fs, some StoreErr.parseFailed)
  | .missing => ({ dirExists := true, file := .valid (setEntry mcpName oauthData []) }, none)
  | .valid m => ({ dirExists := true, file := .valid (setEntry mcpName oauthData m) }, none)

/-! ## Callback server (callback.go) -/

/-- Query parameters of an incoming HTTP request to the callback path. -/
structure CallbackQuery where
  code : String
  state : String
  error : String
  errorDescription : String
deriving Repr, DecidableEq

/-- `callbackResult` holds the result of an OAuth callback. -/
structure callbackResult where
  code : String
  state : String
  error : String
deriving Repr, DecidableEq

/-- The `callbackResult` that `handleCallback` computes from a request's
query parameters (callback.go lines 97-124). -/
def handleResultOf (q : CallbackQuery) : callbackResult :=
  if q.error ≠ "" then
    { code := "", state := "",
      error := if q.errorDescription ≠ "" then q.error ++ ": " ++ q.errorDescription else q.error }
  else if q.code = "" then
    { code := "", state := "", error := "no authorization code received" }
  else
    { code := q.code, state := q.state, error := "" }

/-- `sendResult` delivers through a `sync.Once` latch: the first call stores
its result, every later call is a no-op. The latch state is the delivered
result, if any. -/
def sendResult (delivered : Option callbackResult) (result : callbackResult) :
    Option callbackResult :=
  match delivered with
  | some r0 => some r0
  | none => some result

/-- `handleCallback` as a transition on the latch state. -/
def handleCallback (delivered : Option callbackResult) (q : CallbackQuery) :
    Option callbackResult :=
  sendResult delivered (handleResultOf q)

/-- The latch state after a sequence of incoming requests. -/
def deliveredAfter (qs : List CallbackQuery) : Option callbackResult :=
  qs.foldl handleCallback none

/-! ## Discovery (discovery.go) -/

/-- OAuth 2.0 Authorization Server Metadata (RFC 8414), as unmarshalled. -/
structure discoveryResponse where
  issuer : String
  authorizationEndpoint : String
  tokenEndpoint : String
  registrationEndpoint : String
  scopesSupported : List String
  responseTypesSupported : List String
deriving Repr, DecidableEq

inductive DiscValErr where
  | missingIssuer
  | missingAuthorizationEndpoint
  | missingTokenEndpoint
  | missingResponseTypes
  | issuerMismatch
deriving Repr, DecidableEq

/-- `validateDiscoveryResponse` (discovery.go lines 29-55): required fields
non-empty, `response_types_supported` non-empty, and the issuer begins with
`<scheme>://<host>`. -/
def validateDiscoveryResponse (resp : discoveryResponse) (scheme host : String) :
    Except DiscValErr Unit :=
  if resp.issuer = "" then .error .missingIssuer
  else if resp.authorizationEndpoint = "" then .error .missingAuthorizationEndpoint
  else if resp.tokenEndpoint = "" then .error .missingTokenEndpoint
  else if resp.responseTypesSupported.length = 0 then .error .missingResponseTypes
  else if ¬ resp.issuer.startsWith (scheme ++ "://" ++ host) then .error .issuerMismatch
  else .ok ()

/-- OAuth configuration for an MCP server (oauth.go). -/
structure Config where
  clientID : String
  clientSecret : String
  authURL : String
  tokenURL : String
  scopes : List String
  redirectURI : String
  registrationEndpoint : String
deriving Repr, DecidableEq

/-- `SupportsDynamicRegistration` (oauth.go line 35). -/
def Config.SupportsDynamicRegistration (c : Config) : Bool :=
  c.registrationEndpoint ≠ ""

/-- Result of reading the discovery response body after a status code was
received: the read failed mid-stream, the bytes were not valid JSON, or a
parsed metadata document. -/
inductive BodyOutcome where
  | readError
  | malformed
  | parsed (d : discoveryResponse)
deriving Repr, DecidableEq

/-- Outcome of the discovery HTTP exchange: the request itself failed at the
network level (`client.Do` error), or a response with a status code arrived. -/
inductive HTTPOutcome where
  | netError
  | response (status : Nat) (body : BodyOutcome)
deriving Repr, DecidableEq

inductive DiscoverErr where
  | readBodyFailed
deriving Repr, DecidableEq

/-- `DiscoverOAuth` (discovery.go lines 59-123), as a function of the queried
server's scheme and host and of the HTTP exchange outcome. A `client.Do`
failure, a 404, any other non-200 status, unparseable JSON and a validation
failure all yield `.ok none`; a body-read failure yields an error; a valid
document yields a populated `Config` with `clientID` left empty. -/
def DiscoverOAuth (scheme host : String) (outcome : HTTPOutcome) :
    Except DiscoverErr (Option Config) :=
  match outcome with
  | .netError => .ok none
  | .response status body =>
    if status = 404 then .ok none
    else if status ≠ 200 then .ok none
    else
      match body with
      | .readError => .error .readBodyFailed
      | .malformed => .ok none
      | .parsed d =>
        match validateDiscoveryResponse d scheme host with
        | .error _ => .ok none
        | .ok _ =>
          .ok (some { clientID := "", clientSecret := "",
                      authURL := d.authorizationEndpoint,
                      tokenURL := d.tokenEndpoint,
                      scopes := d.scopesSupported,
                      redirectURI := "",
                      registrationEndpoint := d.registrationEndpoint })

/-! ## PKCE (pkce.go)

`generatePKCE` uses Go's `encoding/base64` `RawURLEncoding` (unpadded
base64url) and `crypto/sha256`; both are embedded here at the byte level.
Bytes are `Nat`s below 256. -/

/-- The base64url alphabet (RFC 4648 §5). -/
def b64urlChar (n : Nat) : Char :=
  if n < 26 then Char.ofNat (65 + n)
  else if n < 52 then Char.ofNat (97 + (n - 26))
  else if n < 62 then Char.ofNat (48 + (n - 52))
  else if n = 62 then '-'
  else '_'

/-- Unpadded base64url encoding of a byte sequence (`RawURLEncoding`). -/
def b64urlEncode : List Nat → List Char
  | b0 :: b1 :: b2 :: rest =>
    let n := b0 * 65536 + b1 * 256 + b2
    b64urlChar (n / 262144 % 64) :: b64urlChar (n / 4096 % 64) ::
      b64urlChar (n / 64 % 64) :: b64urlChar (n % 64) :: b64urlEncode rest
  | [b0, b1] =>
    let n := b0 * 65536 + b1 * 256
    [b64urlChar (n / 262144 % 64), b64urlChar (n / 4096 % 64), b64urlChar (n / 64 % 64)]
  | [b0] =>
    let n := b0 * 65536
    [b64urlChar (n / 262144 % 64), b64urlChar (n / 4096 % 64)]
  | [] => []

/-- Truncation to a 32-bit word. -/
def w32 (n : Nat) : Nat := n % 4294967296

/-- 32-bit right rotation. -/
def rotr (x n : Nat) : Nat := w32 ((x >>> n) ||| (x <<< (32 - n)))

/-- SHA-256 round constants (FIPS 180-4 §4.2.2), in decimal. -/
def sha256K : List Nat :=
  [1116352408, 1899447441, 3049323471, 3921009573,
   961987163, 1508970993, 2453635748, 2870763221,
   3624381080, 310598401, 607225278, 1426881987,
   1925078388, 2162078206, 2614888103, 3248222580,
   3835390401, 4022224774, 264347078, 604807628,
   770255983, 1249150122, 1555081692, 1996064986,
   2554220882, 2821834349, 2952996808, 3210313671,
   3336571891, 3584528711, 113926993, 338241895,
   666307205, 773529912, 1294757372, 1396182291,
   1695183700, 1986661051, 2177026350, 2456956037,
   2730485921, 2820302411, 3259730800, 3345764771,
   3516065817, 3600352804, 4094571909, 275423344,
   430227734, 506948616, 659060556, 883997877,
   958139571, 1322822218, 1537002063, 1747873779,
   1955562222, 2024104815, 2227730452, 2361852424,
   2428436474, 2756734187, 3204031479, 3329325298]

/-- SHA-256 working state / hash value: eight 32-bit words. -/
structure Hash8 where
  a : Nat
  b : Nat
  c : Nat
  d : Nat
  e : Nat
  f : Nat
  g : Nat
  h : Nat
deriving Repr, DecidableEq

/-- SHA-256 initial hash value (FIPS 180-4 §5.3.3), in decimal. -/
def sha256H0 : Hash8 :=
  ⟨1779033703, 3144134277, 1013904242, 2773480762,
   1359893119, 2600822924, 528734635, 1541459225⟩

/-- Merkle–Damgård padding: append 0x80, zero-pad to 56 mod 64, then the
bit length as a 64-bit big-endian integer. -/
def sha256Pad (msg : List Nat) : List Nat :=
  let len := msg.length
  let zeros := (64 + 56 - (len + 1) % 64) % 64
  let bitLen := len * 8
  msg ++ [0x80] ++ List.replicate zeros 0 ++
    [bitLen / 72057594037927936 % 256, bitLen / 281474976710656 % 256,
     bitLen / 1099511627776 % 256, bitLen / 4294967296 % 256,
     bitLen / 16777216 % 256, bitLen / 65536 % 256,
     bitLen / 256 % 256, bitLen % 256]

/-- Split a byte sequence into 64-byte chunks. -/
def toChunks (l : List Nat) : List (List Nat) :=
  if h : l = [] then []
  else (l.take 64) :: toChunks (l.drop 64)
termination_by l.length
decreasing_by
  simp only [List.length_drop]
  have : l.length ≠ 0 := fun hn => h (List.length_eq_zero.mp hn)
  omega

/-- Big-endian 32-bit words of a 64-byte chunk. -/
def chunkWords : List Nat → List Nat
  | b0 :: b1 :: b2 :: b3 :: rest =>
    (b0 * 16777216 + b1 * 65536 + b2 * 256 + b3) :: chunkWords rest
  | _ => []

def sigma0 (x : Nat) : Nat := rotr x 7 ^^^ rotr x 18 ^^^ (x >>> 3)
def sigma1 (x : Nat) : Nat := rotr x 17 ^^^ rotr x 19 ^^^ (x >>> 10)

/-- Extend the schedule by `n` further words. -/
def extendSchedule : Nat → List Nat → List Nat
  | 0, w => w
  | n + 1, w =>
    let len := w.length
    let next := w32 (sigma1 (w.getD (len - 2) 0) + w.getD (len - 7) 0 +
      sigma0 (w.getD (len - 15) 0) + w.getD (len - 16) 0)
    extendSchedule n (w ++ [next])

/-- One SHA-256 compression round. -/
def compressRound (st : Hash8) (kw : Nat × Nat) : Hash8 :=
  let s1 := rotr st.e 6 ^^^ rotr st.e 11 ^^^ rotr st.e 25
  let ch := (st.e &&& st.f) ^^^ ((st.e ^^^ 4294967295) &&& st.g)
  let temp1 := w32 (st.h + s1 + ch + kw.1 + kw.2)
  let s0 := rotr st.a 2 ^^^ rotr st.a 13 ^^^ rotr st.a 22
  let maj := (st.a &&& st.b) ^^^ (st.a &&& st.c) ^^^ (st.b &&& st.c)
  let temp2 := w32 (s0 + maj)
  ⟨w32 (temp1 + temp2), st.a, st.b, st.c, w32 (st.d + temp1), st.e, st.f, st.g⟩

/-- Process one 64-byte chunk. -/
def processChunk (hv : Hash8) (chunk : List Nat) : Hash8 :=
  let w := extendSchedule 48 (chunkWords chunk)
  let st := (sha256K.zip w).foldl compressRound hv
  ⟨w32 (hv.a + st.a), w32 (hv.b + st.b), w32 (hv.c + st.c), w32 (hv.d + st.d),
   w32 (hv.e + st.e), w32 (hv.f + st.f), w32 (hv.g + st.g), w32 (hv.h + st.h)⟩

/-- Big-endian bytes of the final hash value. -/
def digestBytes (hv : Hash8) : List Nat :=
  [hv.a / 16777216 % 256, hv.a / 65536 % 256, hv.a / 256 % 256, hv.a % 256,
   hv.b / 16777216 % 256, hv.b / 65536 % 256, hv.b / 256 % 256, hv.b % 256,
   hv.c / 16777216 % 256, hv.c / 65536 % 256, hv.c / 256 % 256, hv.c % 256,
   hv.d / 16777216 % 256, hv.d / 65536 % 256, hv.d / 256 % 256, hv.d % 256,
   hv.e / 16777216 % 256, hv.e / 65536 % 256, hv.e / 256 % 256, hv.e % 256,
   hv.f / 16777216 % 256, hv.f / 65536 % 256, hv.f / 256 % 256, hv.f % 256,
   hv.g / 16777216 % 256, hv.g / 65536 % 256, hv.g / 256 % 256, hv.g % 256,
   hv.h / 16777216 % 256, hv.h / 65536 % 256, hv.h / 256 % 256, hv.h % 256]

/-- SHA-256 of a byte sequence. -/
def sha256 (msg : List Nat) : List Nat :=
  digestBytes ((toChunks (sha256Pad msg)).foldl processChunk sha256H0)

/-- `generatePKCE` (pkce.go lines 14-26), parameterized by the 32 random
bytes drawn from `crypto/rand`. The verifier is their unpadded base64url
encoding; the challenge is the unpadded base64url encoding of the SHA-256
hash of the verifier's ASCII bytes. -/
def generatePKCE (verifierBytes : List Nat) : List Char × List Char :=
  let verifier := b64urlEncode verifierBytes
  let challenge := b64urlEncode (sha256 (verifier.map Char.toNat))
  (verifier, challenge)

/-! ## URL parsing (Go net/url, as used by oauth.go)

Only the parts of `net/url` that the OAuth code exercises are embedded:
scheme extraction, authority/host extraction, `Hostname()`, the raw query
component, `ParseQuery` and the `Values` map with `Set`. -/

/-- `strings.Cut` at a single character: the part before the first
occurrence, the part after it, and whether it was found. -/
def cutChar (c : Char) : List Char → List Char × List Char × Bool
  | [] => ([], [], false)
  | x :: xs =>
    if x = c then ([], xs, true)
    else
      let r := cutChar c xs
      (x :: r.1, r.2.1, r.2.2)

/-- Split at every occurrence of a character; the concatenation of the
pieces interleaved with the separator is the input. Mirrors Go's loop of
repeated `strings.Cut` calls. -/
def splitOnChar (c : Char) : List Char → List (List Char)
  | [] => [[]]
  | x :: xs =>
    let r := splitOnChar c xs
    if x = c then [] :: r
    else (x :: r.headD []) :: r.tail

def isAlphaB (c : Char) : Bool :=
  ('a' ≤ c && c ≤ 'z') || ('A' ≤ c && c ≤ 'Z')

def isDigitB (c : Char) : Bool :=
  '0' ≤ c && c ≤ '9'

/-- `getScheme` of `net/url`: scans for the first `:`; the characters before
it must form a scheme (letter first, then letters, digits, `+`, `-`, `.`).
Returns `none` exactly on the "missing protocol scheme" error (`:` at
position 0); otherwise the scheme (possibly empty) and the remainder. -/
def getSchemeAux (full : List Char) (acc : List Char) :
    List Char → Option (List Char × List Char)
  | [] => some ([], full)
  | c :: rest =>
    if isAlphaB c then getSchemeAux full (acc ++ [c]) rest
    else if isDigitB c || c = '+' || c = '-' || c = '.' then
      if acc = [] then some ([], full) else getSchemeAux full (acc ++ [c]) rest
    else if c = ':' then
      if acc = [] then none else some (acc, rest)
    else some ([], full)

def getScheme (s : List Char) : Option (List Char × List Char) :=
  getSchemeAux s [] s

/-- ASCII lowercase, as `strings.ToLower` acts on scheme characters. -/
def lowerChar (c : Char) : Char :=
  if 'A' ≤ c && c ≤ 'Z' then Char.ofNat (c.toNat + 32) else c

/-- The parsed URL components the OAuth code inspects. -/
structure URLParts where
  scheme : String
  host : String
deriving Repr, DecidableEq

/-- `url.Parse`, restricted to the components used here: the fragment is cut
at the first `#`, the query at the first `?`, the scheme is extracted and
lowercased, and when the remainder starts with `//` the authority runs to
the next `/` with the host being the part after the last `@`. -/
def parseURL (s : String) : Option URLParts :=
  let noFrag := (cutChar '#' s.toList).1
  match getScheme noFrag with
  | none => none
  | some (scheme, rest) =>
    let beforeQuery := (cutChar '?' rest).1
    if beforeQuery.take 2 = ['/', '/'] then
      let authority := (beforeQuery.drop 2).takeWhile (fun c => c ≠ '/')
      let host := ((cutChar '@' authority.reverse).1).reverse
      some { scheme := String.mk (scheme.map lowerChar), host := String.mk host }
    else
      some { scheme := String.mk (scheme.map lowerChar), host := "" }

/-- `validOptionalPort` of `net/url`: empty, or `:` followed by digits only. -/
def validOptionalPort (p : List Char) : Bool :=
  match p with
  | [] => true
  | ':' :: ds => ds.all isDigitB
  | _ => false

/-- Index of the last occurrence of a character, as
`strings.LastIndexByte`, or `none`. -/
def lastIndexOfChar (c : Char) (l : List Char) : Option Nat :=
  match (cutChar c l.reverse).2.2, (cutChar c l.reverse).1.length with
  | true, k => some (l.length - 1 - k)
  | false, _ => none

/-- `URL.Hostname()`: strip a valid `:port` suffix, then surrounding
brackets of an IPv6 literal. -/
def hostnameOf (host : String) : String :=
  let l := host.toList
  let stripped :=
    match lastIndexOfChar ':' l with
    | some i => if validOptionalPort (l.drop i) then l.take i else l
    | none => l
  match stripped with
  | '[' :: rest =>
    if rest.getLast? = some ']' then String.mk (rest.dropLast) else String.mk stripped
  | _ => String.mk stripped

/-! ## Query values (Go url.Values) -/

/-- `url.Values`: a map from key to list of values, modelled as an
association list with unique keys. -/
def Values := List (String × List String)

instance : DecidableEq Values := by
  unfold Values
  infer_instance

/-- `Values.Add`: append a value under a key. -/
def valuesAdd (k v : String) : Values → Values
  | [] => [(k, [v])]
  | (k0, vs) :: rest =>
    if k0 = k then (k0, vs ++ [v]) :: rest else (k0, vs) :: valuesAdd k v rest

/-- `Values.Set`: replace all values of a key with a single value. -/
def valuesSet (k v : String) : Values → Values
  | [] => [(k, [v])]
  | (k0, vs) :: rest =>
    if k0 = k then (k0, [v]) :: rest else (k0, vs) :: valuesSet k v rest

def valuesKeys (m : Values) : List String := m.map Prod.fst

def valuesGet (k : String) : Values → Option (List String)
  | [] => none
  | (k0, vs) :: rest => if k0 = k then some vs else valuesGet k rest

/-- Hexadecimal digit value. -/
def hexVal (c : Char) : Option Nat :=
  if isDigitB c then some (c.toNat - 48)
  else if 'a' ≤ c && c ≤ 'f' then some (c.toNat - 87)
  else if 'A' ≤ c && c ≤ 'F' then some (c.toNat - 55)
  else none

/-- `url.QueryUnescape`: `+` becomes space, `%XX` is decoded, an invalid
escape is an error. -/
def unescapeChars : List Char → Option (List Char)
  | [] => some []
  | '%' :: a :: b :: rest =>
    match hexVal a, hexVal b with
    | some ha, some hb =>
      (unescapeChars rest).map (fun r => Char.ofNat (16 * ha + hb) :: r)
    | _, _ => none
  | '%' :: _ => none
  | '+' :: rest => (unescapeChars rest).map (fun r => ' ' :: r)
  | c :: rest => (unescapeChars rest).map (fun r => c :: r)

/-- `url.ParseQuery` (errors are recorded but pairs after a bad one are
still processed, and `URL.Query()` discards the error): cut at `&`, skip
empty pairs and pairs containing `;` or with invalid escapes, cut each pair
at the first `=`, unescape key and value, and add to the map. -/
def parseQueryChars (q : List Char) (m : Values) : Values :=
  (splitOnChar '&' q).foldl
    (fun acc kv =>
      if kv.contains ';' then acc
      else if kv = [] then acc
      else
        let pair := cutChar '=' kv
        match unescapeChars pair.1, unescapeChars pair.2.1 with
        | some k, some v => valuesAdd (String.mk k) (String.mk v) acc
        | _, _ => acc) m

/-- The raw query component of a URL string: after the first `?`, the
fragment (everything from the first `#`) having been cut first. -/
def rawQueryOf (s : String) : List Char :=
  (cutChar '?' (cutChar '#' s.toList).1).2.1

/-! ## Config validation and authorization URL (oauth.go) -/

/-- The default redirect URI using the default callback port. -/
def DefaultRedirectURI : String := "http://localhost:19876/callback"

inductive ConfigErr where
  | invalidRedirectURI
  | redirectURINotHTTP
  | redirectURINotLoopback
  | invalidAuthURL
  | invalidTokenURL
  | invalidRegistrationEndpoint
  | missingClientIDAndRegistration
deriving Repr, DecidableEq

/-- `validateRedirectURI` (oauth.go lines 82-98): the URI must parse, use
scheme `http`, and have hostname `localhost` or `127.0.0.1`. -/
def validateRedirectURI (uri : String) : Except ConfigErr Unit :=
  match parseURL uri with
  | none => .error .invalidRedirectURI
  | some u =>
    if u.scheme ≠ "http" then .error .redirectURINotHTTP
    else
      let host := hostnameOf u.host
      if host ≠ "localhost" && host ≠ "127.0.0.1" then .error .redirectURINotLoopback
      else .ok ()

/-- `Config.Validate` (oauth.go lines 42-78): default the redirect URI,
validate it, parse the other URL fields only when non-empty, and require
`client_id` or `registration_endpoint`. Returns the normalized config. -/
def Config.Validate (c : Config) : Except ConfigErr Config :=
  let c := if c.redirectURI = "" then { c with redirectURI := DefaultRedirectURI } else c
  match validateRedirectURI c.redirectURI with
  | .error e => .error e
  | .ok _ =>
    if c.authURL ≠ "" && (parseURL c.authURL).isNone then .error .invalidAuthURL
    else if c.tokenURL ≠ "" && (parseURL c.tokenURL).isNone then .error .invalidTokenURL
    else if c.registrationEndpoint ≠ "" && (parseURL c.registrationEndpoint).isNone then
      .error .invalidRegistrationEndpoint
    else if c.clientID = "" && c.registrationEndpoint = "" then
      .error .missingClientIDAndRegistration
    else .ok c

/-- The query-parameter map of the URL produced by `authorizeURL`
(oauth.go lines 101-123): start from the query already present in
`cfg.AuthURL` (`u.Query()`), then `Set` each OAuth parameter, with `scope`
set only when the scopes list is non-empty. -/
def authorizeURLQuery (cfg : Config) (state challenge : String) : Values :=
  let q := parseQueryChars (rawQueryOf cfg.authURL) []
  let q := valuesSet "response_type" "code" q
  let q := valuesSet "client_id" cfg.clientID q
  let q := valuesSet "redirect_uri" cfg.redirectURI q
  let q := valuesSet "state" state q
  let q := if cfg.scopes.length > 0 then
      valuesSet "scope" (String.intercalate " " cfg.scopes) q
    else q
  let q := valuesSet "code_challenge" challenge q
  valuesSet "code_challenge_method" "S256" q

/-! ## Tokens, token exchange and refresh (oauth.go, internal/oauth) -/

/-- Modelled from the spec: the `oauth.Token` type of `internal/oauth` is
not under src/. Fields: `access_token`, `refresh_token`, `expires_in`
(seconds from issuance), `expires_at` (absolute epoch seconds); a zero
`expires_at` means "not set". -/
structure Token where
  accessToken : String
  refreshToken : String
  expiresIn : Int
  expiresAt : Int
deriving Repr, DecidableEq

/-- Modelled from the spec: `oauth.Token.IsExpired` of `internal/oauth` is
not under src/. "`IsExpired()` is true when `expires_at ≤ now`. A token with
no `expires_at` is treated as non-expiring." -/
def Token.IsExpired (t : Token) (now : Int) : Bool :=
  t.expiresAt ≠ 0 && t.expiresAt ≤ now

/-- Modelled from the spec: `oauth.Token.SetExpiresAt` of `internal/oauth`
is not under src/. "if `expires_in > 0`, `expires_at` is set at
construction" to issuance time plus `expires_in`. -/
def Token.SetExpiresAt (t : Token) (now : Int) : Token :=
  if t.expiresIn > 0 then { t with expiresAt := now + t.expiresIn } else t

/-- The token-endpoint JSON body, as parsed by `doTokenRequest`. -/
structure TokenResponse where
  accessToken : String
  refreshToken : String
  expiresIn : Int
deriving Repr, DecidableEq

/-- Outcome of a token-endpoint POST: network failure, or a response with a
status code and (for the model) its parsed JSON body, `none` when the body
is not valid JSON. -/
inductive TokenReqOutcome where
  | netError
  | response (status : Nat) (parse : Option TokenResponse)
deriving Repr, DecidableEq

inductive TokenErr where
  | requestFailed
  | badStatus
  | parseFailed
deriving Repr, DecidableEq

/-- `doTokenRequest` (oauth.go lines 159-204): non-200 status and malformed
bodies are errors; on success the token is built from the response fields
with `SetExpiresAt` applied at the current time. -/
def doTokenRequest (now : Int) (outcome : TokenReqOutcome) : Except TokenErr Token :=
  match outcome with
  | .netError => .error .requestFailed
  | .response status parse =>
    if status ≠ 200 then .error .badStatus
    else
      match parse with
      | none => .error .parseFailed
      | some tr =>
        .ok (Token.SetExpiresAt
          { accessToken := tr.accessToken, refreshToken := tr.refreshToken,
            expiresIn := tr.expiresIn, expiresAt := 0 } now)

/-- `RefreshToken` (oauth.go lines 146-157) posts the refresh grant to the
token URL; its result is that of `doTokenRequest` on the exchange outcome. -/
def RefreshToken (now : Int) (outcome : TokenReqOutcome) : Except TokenErr Token :=
  doTokenRequest now outcome

/-! ## Token provider (oauth_transport.go / token_store.go callers) -/

/-- Credentials returned by dynamic client registration (register.go). -/
structure ClientCredentials where
  clientID : String
  clientSecret : String
  registrationAccessToken : String
  registrationClientURI : String
deriving Repr, DecidableEq

/-- `OAuthTokenProvider` state: the server name, the working config (mutated
when client credentials are loaded or registered) and the cached token. -/
structure ProviderState where
  name : String
  config : Config
  token : Option Token
deriving Repr, DecidableEq

/-- Environment of one provider operation: the current time, the store
filesystem state, and the outcomes of the external calls the operation may
make (dynamic registration, refresh at the token endpoint, the installed
auth function — `none` when no auth function was set). -/
structure ProviderEnv where
  now : Int
  fs : FS
  registerOutcome : Except Unit ClientCredentials
  refreshOutcome : TokenReqOutcome
  authOutcome : Option (Except Unit Token)

inductive ProvErr where
  | loadFailed
  | noClientIDAndNoRegistration
  | registrationFailed
  | noAuthFunc
  | authFailed
deriving Repr, DecidableEq

/-- `dataToToken` (oauth_transport.go lines 315-322). -/
def dataToToken (data : MCPOAuthData) : Token :=
  { accessToken := data.accessToken, refreshToken := data.refreshToken,
    expiresIn := data.expiresIn, expiresAt := data.expiresAt }

/-- `ensureClientRegistration` (oauth_transport.go lines 128-181): keep an
existing `client_id`; otherwise adopt stored credentials; otherwise register
dynamically, persist the credentials merged with any stored token fields
(a save failure is only logged), and update the working config. -/
def ensureClientRegistration (p : ProviderState) (env : ProviderEnv) :
    Except ProvErr (ProviderState × FS) :=
  if p.config.clientID ≠ "" then .ok (p, env.fs)
  else
    match TokenStore.Load p.name env.fs with
    | .error _ => .error .loadFailed
    | .ok data =>
      match data with
      | some d =>
        if d.clientID ≠ "" then
          .ok ({ p with config :=
            { p.config with clientID := d.clientID, clientSecret := d.clientSecret } }, env.fs)
        else registerNew p env data
      | none => registerNew p env data
where
  registerNew (p : ProviderState) (env : ProviderEnv) (data : Option MCPOAuthData) :
      Except ProvErr (ProviderState × FS) :=
    if ¬ p.config.SupportsDynamicRegistration then .error .noClientIDAndNoRegistration
    else
      match env.registerOutcome with
      | .error _ => .error .registrationFailed
      | .ok creds =>
        let saveData : MCPOAuthData :=
          { accessToken := (data.map (·.accessToken)).getD ""
            refreshToken := (data.map (·.refreshToken)).getD ""
            expiresIn := (data.map (·.expiresIn)).getD 0
            expiresAt := (data.map (·.expiresAt)).getD 0
            clientID := creds.clientID
            clientSecret := creds.clientSecret }
        let saved := TokenStore.Save p.name saveData env.fs
        .ok ({ p with config :=
          { p.config with clientID := creds.clientID, clientSecret := creds.clientSecret } },
          saved.1)

/-- `saveToken` (oauth_transport.go lines 298-312): load the existing entry
(empty on any failure) to preserve client credentials, overwrite the token
fields, and save. -/
def saveToken (p : ProviderState) (t : Token) (fs : FS) : FS × Option StoreErr :=
  let data : MCPOAuthData :=
    match TokenStore.Load p.name fs with
    | .ok (some d) => d
    | _ => { accessToken := "", refreshToken := "", expiresIn := 0, expiresAt := 0,
             clientID := "", clientSecret := "" }
  TokenStore.Save p.name
    { data with accessToken := t.accessToken, refreshToken := t.refreshToken,
                expiresIn := t.expiresIn, expiresAt := t.expiresAt } fs

/-- `loadOrRefreshStoredToken` (oauth_transport.go lines 224-260): returns
the token found or refreshed (with the updated provider state and store),
or `none` when no usable token exists — every failure on this path is
swallowed. -/
def loadOrRefreshStoredToken (p : ProviderState) (env : ProviderEnv) :
    Option Token × ProviderState × FS :=
  match TokenStore.Load p.name env.fs with
  | .error _ => (none, p, env.fs)
  | .ok none => (none, p, env.fs)
  | .ok (some data) =>
    if data.accessToken = "" then (none, p, env.fs)
    else
      let stored := dataToToken data
      if ¬ stored.IsExpired env.now then
        (some stored, { p with token := some stored }, env.fs)
      else if stored.refreshToken = "" then (none, p, env.fs)
      else
        match ensureClientRegistration p env with
        | .error _ => (none, p, env.fs)
        | .ok (p1, fs1) =>
          match RefreshToken env.now env.refreshOutcome with
          | .error _ => (none, p1, fs1)
          | .ok newToken =>
            let p2 := { p1 with token := some newToken }
            let saved := saveToken p2 newToken fs1
            (some newToken, p2, saved.1)

/-- The cached token, when present and valid (oauth_transport.go line 190). -/
def cachedValid (p : ProviderState) (now : Int) : Option Token :=
  match p.token with
  | some t => if ¬ t.IsExpired now then some t else none
  | none => none

/-- `EnsureToken` (oauth_transport.go lines 185-219): return the cached
token if valid; else a stored (possibly refreshed) token; else, when an
auth function is installed, ensure client registration, invoke it, cache
and persist its token (a save failure is only logged). -/
def EnsureToken (p : ProviderState) (env : ProviderEnv) :
    Except ProvErr (Token × ProviderState × FS) :=
  match cachedValid p env.now with
  | some t => .ok (t, p, env.fs)
  | none =>
    match loadOrRefreshStoredToken p env with
    | (some t, p1, fs1) => .ok (t, p1, fs1)
    | (none, p1, fs1) =>
      match env.authOutcome with
      | none => .error .noAuthFunc
      | some authRes =>
        match ensureClientRegistration p1 { env with fs := fs1 } with
        | .error e => .error e
        | .ok (p2, fs2) =>
          match authRes with
          | .error _ => .error .authFailed
          | .ok t =>
            let p3 := { p2 with token := some t }
            let saved := saveToken p3 t fs2
            .ok (t, p3, saved.1)

/-! ## OAuth HTTP middleware (oauth_transport.go RoundTrip) -/

/-- An HTTP response as the middleware observes it: the status code and an
identifier for the body (to track which bodies get closed). -/
structure Resp where
  statusCode : Nat
  bodyId : Nat
deriving Repr, DecidableEq

/-- Environment of one `RoundTrip` call: the current time, the outcome of
the provider's `EnsureToken`, the outcome of each `RefreshToken` call (by
call index) and of each forwarded attempt on the base transport (by attempt
index). -/
structure RTEnv where
  now : Int
  ensureOutcome : Except Unit Token
  refreshOutcomes : Nat → Except Unit Token
  baseOutcomes : Nat → Except Unit Resp

/-- Observable trace of a `RoundTrip` call: the `Authorization` header of
each attempt forwarded to the base transport, in order; the number of
`RefreshToken` calls made; the bodies closed. -/
structure RTTrace where
  bearers : List String
  refreshCount : Nat
  closedBodies : List Nat
deriving Repr, DecidableEq

inductive RTErr where
  | ensureFailed
  | refreshFailed
  | transportFailed
  | refreshAfter401Failed
deriving Repr, DecidableEq

/-- The send phase of `RoundTrip` (oauth_transport.go lines 63-87): clone
the request with the bearer, forward it; on 401 close the body, refresh
once, and forward a fresh clone with the new token exactly once, returning
that second outcome unmodified. `rc` counts refreshes already made. -/
def sendPhase (env : RTEnv) (token : Token) (rc : Nat) : Except RTErr Resp × RTTrace :=
  let bearer := "Bearer " ++ token.accessToken
  match env.baseOutcomes 0 with
  | .error _ => (.error .transportFailed, ⟨[bearer], rc, []⟩)
  | .ok resp =>
    if resp.statusCode = 401 then
      match env.refreshOutcomes rc with
      | .error _ => (.error .refreshAfter401Failed, ⟨[bearer], rc + 1, [resp.bodyId]⟩)
      | .ok newToken =>
        let bearer2 := "Bearer " ++ newToken.accessToken
        match env.baseOutcomes 1 with
        | .error _ => (.error .transportFailed, ⟨[bearer, bearer2], rc + 1, [resp.bodyId]⟩)
        | .ok resp2 => (.ok resp2, ⟨[bearer, bearer2], rc + 1, [resp.bodyId]⟩)
    else (.ok resp, ⟨[bearer], rc, []⟩)

/-- `RoundTrip` (oauth_transport.go lines 44-88): get a token via
`EnsureToken` (fail fast), refresh first if it reports expired, then run
the send phase. -/
def RoundTrip (env : RTEnv) : Except RTErr Resp × RTTrace :=
  match env.ensureOutcome with
  | .error _ => (.error .ensureFailed, ⟨[], 0, []⟩)
  | .ok t0 =>
    if t0.IsExpired env.now then
      match env.refreshOutcomes 0 with
      | .error _ => (.error .refreshFailed, ⟨[], 1, []⟩)
      | .ok t1 => sendPhase env t1 1
    else sendPhase env t0 0

/-! ## Concrete example inputs used by witnesses and counterexamples -/

/-- A config that passes `Validate` and whose authorization URL already
carries a query parameter (`?foo=bar`). -/
def exampleAuthCfg : Config :=
  { clientID := "test-client-id", clientSecret := "",
    authURL := "https://auth.example.com/authorize?foo=bar",
    tokenURL := "https://auth.example.com/token", scopes := [],
    redirectURI := "http://localhost:19876/callback", registrationEndpoint := "" }

/-- A middleware environment: a valid token, a 401 first response (body 7),
a refresh that yields a new token, and a 401 second response (body 8). -/
def rtEnvExample : RTEnv :=
  { now := 0, ensureOutcome := .ok ⟨"tokA", "", 0, 0⟩,
    refreshOutcomes := fun _ => .ok ⟨"tokB", "", 0, 0⟩,
    baseOutcomes := fun n => if n = 0 then .ok ⟨401, 7⟩ else .ok ⟨401, 8⟩ }

/-! ## Theorems -/

theorem lookupEntry_setEntry_self (name : String) (e : MCPOAuthData) :
    ∀ m, lookupEntry name (setEntry name e m) = some e := by
  intro m
  induction m with
  | nil => simp [setEntry, lookupEntry]
  | cons kv rest ih =>
    obtain ⟨k, v⟩ := kv
    by_cases hk : k = name <;> simp [setEntry, lookupEntry, hk, ih]

theorem lookupEntry_setEntry_ne (name other : String) (e : MCPOAuthData)
    (hne : name ≠ other) :
    ∀ m, lookupEntry name (setEntry other e m) = lookupEntry name m := by
  have hon : ¬ other = name := fun h => hne h.symm
  intro m
  induction m with
  | nil => simp [setEntry, lookupEntry, hon]
  | cons kv rest ih =>
    obtain ⟨k, v⟩ := kv
    by_cases hk : k = other
    · subst hk
      simp [setEntry, lookupEntry, hon]
    · by_cases hkn : k = name <;> simp [setEntry, lookupEntry, hk, hkn, hne, ih]

/-- C3: after `Save(name, e)` followed by `Save(other, e')` with
`other ≠ name`, a subsequent `Load(name)` returns exactly `e`; saving under
one name never changes the entry stored under any other name. -/
theorem tokenStore_save_frame (fs fs1 fs2 : FS) (name other : String)
    (e e' : MCPOAuthData) (hne : name ≠ other)
    (h1 : TokenStore.Save name e fs = (fs1, none))
    (h2 : TokenStore.Save other e' fs1 = (fs2, none)) :
    TokenStore.Load name fs2 = .ok (some e) := by
  obtain ⟨d, file⟩ := fs
  cases file with
  | corrupt => simp [TokenStore.Save] at h1
  | missing =>
    simp only [TokenStore.Save] at h1
    have hfs1 : ({ dirExists := true, file := .valid (setEntry name e []) } : FS) = fs1 :=
      congrArg Prod.fst h1
    subst hfs1
    simp only [TokenStore.Save] at h2
    have hfs2 :
        ({ dirExists := true,
           file := .valid (setEntry other e' (setEntry name e [])) } : FS) = fs2 :=
      congrArg Prod.fst h2
    subst hfs2
    simp [TokenStore.Load, lookupEntry_setEntry_ne name other e' hne,
      lookupEntry_setEntry_self]
  | valid m =>
    simp only [TokenStore.Save] at h1
    have hfs1 : ({ dirExists := true, file := .valid (setEntry name e m) } : FS) = fs1 :=
      congrArg Prod.fst h1
    subst hfs1
    simp only [TokenStore.Save] at h2
    have hfs2 :
        ({ dirExists := true,
           file := .valid (setEntry other e' (setEntry name e m)) } : FS) = fs2 :=
      congrArg Prod.fst h2
    subst hfs2
    simp [TokenStore.Load, lookupEntry_setEntry_ne name other e' hne,
      lookupEntry_setEntry_self]

/-- C3 witness: the frame property at concrete entries and names. -/
theorem tokenStore_save_frame_witness :
    TokenStore.Load "a"
      (TokenStore.Save "b" ⟨"x2", "", 0, 0, "", ""⟩
        ((TokenStore.Save "a" ⟨"x1", "r1", 7, 99, "c1", "s1"⟩ ⟨false, .missing⟩).1)).1 =
      Except.ok (some (⟨"x1", "r1", 7, 99, "c1", "s1"⟩ : MCPOAuthData)) := by
  exact tokenStore_save_frame ⟨false, .missing⟩ _ _ "a" "b"
    ⟨"x1", "r1", 7, 99, "c1", "s1"⟩ ⟨"x2", "", 0, 0, "", ""⟩ (by decide) rfl rfl

/-- C8: saving over an existing but unparseable store file fails and leaves
the filesystem unchanged; a missing file is not an error for `Load`; `Save`
on a missing file creates it (with exactly the new entry) and its parent
directory. -/
theorem tokenStore_corrupt_missing (name : String) (e : MCPOAuthData) (d : Bool) :
    TokenStore.Save name e ⟨d, .corrupt⟩ = (⟨d, .corrupt⟩, some .parseFailed) ∧
    TokenStore.Load name ⟨d, .missing⟩ = .ok none ∧
    TokenStore.Save name e ⟨d, .missing⟩ = (⟨true, .valid [(name, e)]⟩, none) :=
  ⟨rfl, rfl, rfl⟩

theorem foldl_handleCallback_some (qs : List CallbackQuery) (r : callbackResult) :
    qs.foldl handleCallback (some r) = some r := by
  induction qs with
  | nil => rfl
  | cons q rest ih => simpa [handleCallback, sendResult] using ih

/-- C9: for every sequence of incoming requests to the callback path,
exactly one result is ever delivered — the one computed from the first
request — and results from all later requests are discarded. -/
theorem callback_single_shot (q : CallbackQuery) (qs : List CallbackQuery) :
    deliveredAfter (q :: qs) = some (handleResultOf q) := by
  simp only [deliveredAfter, List.foldl_cons, handleCallback, sendResult]
  exact foldl_handleCallback_some qs (handleResultOf q)

/-- C4 counterexample: a network-level failure while reading the body of a
200 discovery response makes `DiscoverOAuth` return a non-nil error, so the
claim "any network-level failure yields (null, nil)" is false as stated. -/
theorem discover_read_failure_is_error :
    DiscoverOAuth "https" "example.com" (.response 200 .readError) =
      .error .readBodyFailed := rfl

/-- C4 (amended): a failure of the discovery request itself (`client.Do`),
every non-200 status (404 included) and unparseable JSON metadata each make
`DiscoverOAuth` return `(null, nil)`; only a failure reading the body of a
200 response is surfaced as an error. -/
theorem discover_soft_failures (scheme host : String) (status : Nat)
    (body : BodyOutcome) (hs : status ≠ 200) :
    DiscoverOAuth scheme host .netError = .ok none ∧
    DiscoverOAuth scheme host (.response status body) = .ok none ∧
    DiscoverOAuth scheme host (.response 200 .malformed) = .ok none := by
  refine ⟨rfl, ?_, rfl⟩
  by_cases h404 : status = 404 <;> simp [DiscoverOAuth, h404, hs]

/-- C4 witness: the amended claim at a concrete non-200 status. -/
theorem discover_soft_failures_witness :
    DiscoverOAuth "https" "example.com" .netError = .ok none ∧
    DiscoverOAuth "https" "example.com" (.response 500 .readError) = .ok none ∧
    DiscoverOAuth "https" "example.com" (.response 200 .malformed) = .ok none :=
  discover_soft_failures "https" "example.com" 500 .readError (by decide)

/-- C5: a discovery response is accepted (validation returns ok) iff
`issuer`, `authorization_endpoint` and `token_endpoint` are non-empty,
`response_types_supported` is non-empty, and the issuer begins with
`<scheme>://<host>`; whenever any check fails, `DiscoverOAuth` on an
otherwise successful 200 exchange returns `(null, nil)`. -/
theorem validateDiscoveryResponse_iff (resp : discoveryResponse) (scheme host : String) :
    (validateDiscoveryResponse resp scheme host = .ok () ↔
      (resp.issuer ≠ "" ∧ resp.authorizationEndpoint ≠ "" ∧ resp.tokenEndpoint ≠ "" ∧
       resp.responseTypesSupported ≠ [] ∧
       resp.issuer.startsWith (scheme ++ "://" ++ host) = true)) ∧
    (validateDiscoveryResponse resp scheme host ≠ .ok () →
      DiscoverOAuth scheme host (.response 200 (.parsed resp)) = .ok none) := by
  constructor
  · simp only [validateDiscoveryResponse]
    split_ifs with h1 h2 h3 h4 h5 <;>
      simp_all [List.length_eq_zero]
  · intro hne
    simp only [DiscoverOAuth]
    norm_num
    cases hv : validateDiscoveryResponse resp scheme host with
    | error e => simp
    | ok u => exact absurd (hv.trans (congrArg _ (Unit.ext u ()))) hne

/-- C5 witness: a response with a wrong issuer host fails validation and
discovery returns `(null, nil)` for it. -/
theorem validateDiscoveryResponse_iff_witness :
    DiscoverOAuth "https" "example.com"
      (.response 200 (.parsed ⟨"https://evil.com", "https://example.com/authorize",
        "https://example.com/token", "", [], ["code"]⟩)) = .ok none := by
  refine (validateDiscoveryResponse_iff
    ⟨"https://evil.com", "https://example.com/authorize",
      "https://example.com/token", "", [], ["code"]⟩ "https" "example.com").2 ?_
  have hv : validateDiscoveryResponse
      ⟨"https://evil.com", "https://example.com/authorize",
        "https://example.com/token", "", [], ["code"]⟩ "https" "example.com" =
      .error .issuerMismatch := rfl
  rw [hv]
  exact fun hcon => Except.noConfusion hcon

theorem b64urlEncode_length (bs : List Nat) :
    (b64urlEncode bs).length = (bs.length * 4 + 2) / 3 := by
  match bs with
  | [] => rfl
  | [b0] => simp [b64urlEncode]
  | [b0, b1] => simp [b64urlEncode]
  | b0 :: b1 :: b2 :: rest =>
    have ih := b64urlEncode_length rest
    simp only [b64urlEncode, List.length_cons, ih]
    omega

theorem sha256_length (msg : List Nat) : (sha256 msg).length = 32 := rfl

/-- C6: for every 32-byte random input, the verifier is its unpadded
base64url encoding and has length 43, and the challenge is the unpadded
base64url encoding of the SHA-256 hash of the verifier's ASCII bytes and
has length 43. -/
theorem generatePKCE_spec (rb : List Nat) (h : rb.length = 32) :
    (generatePKCE rb).1 = b64urlEncode rb ∧
    (generatePKCE rb).1.length = 43 ∧
    (generatePKCE rb).2 = b64urlEncode (sha256 ((generatePKCE rb).1.map Char.toNat)) ∧
    (generatePKCE rb).2.length = 43 := by
  refine ⟨rfl, ?_, rfl, ?_⟩
  · simp [generatePKCE, b64urlEncode_length, h]
  · simp [generatePKCE, b64urlEncode_length, sha256_length]

/-- C6 witness: the PKCE property at a concrete 32-byte input. -/
theorem generatePKCE_spec_witness :
    (generatePKCE (List.replicate 32 0)).1.length = 43 ∧
    (generatePKCE (List.replicate 32 0)).2.length = 43 := by
  have h := generatePKCE_spec (List.replicate 32 0) (by simp)
  exact ⟨h.2.1, h.2.2.2⟩

/-- C10: `Validate` succeeds on a config whose `client_id` is non-empty
even when `authorization_url`, `token_url` and `registration_endpoint` are
all empty: URL fields other than `redirect_uri` are checked only when
non-empty, so validation never requires an authorization or token URL. The
empty `redirect_uri` is normalized to the default. -/
theorem config_validate_no_urls (cid csec : String) (scopes : List String)
    (h : cid ≠ "") :
    Config.Validate
      { clientID := cid, clientSecret := csec, authURL := "", tokenURL := "",
        scopes := scopes, redirectURI := "", registrationEndpoint := "" } =
    .ok { clientID := cid, clientSecret := csec, authURL := "", tokenURL := "",
          scopes := scopes, redirectURI := DefaultRedirectURI,
          registrationEndpoint := "" } := by
  have hred : validateRedirectURI DefaultRedirectURI = .ok () := rfl
  simp [Config.Validate, hred, h]

/-- C10 witness: the property at a concrete client id. -/
theorem config_validate_no_urls_witness :
    Config.Validate
      { clientID := "test-client", clientSecret := "", authURL := "", tokenURL := "",
        scopes := [], redirectURI := "", registrationEndpoint := "" } =
    .ok { clientID := "test-client", clientSecret := "", authURL := "", tokenURL := "",
          scopes := [], redirectURI := DefaultRedirectURI,
          registrationEndpoint := "" } :=
  config_validate_no_urls "test-client" "" [] (by decide)

/-- C7 counterexample: a validated config whose `authorization_url` already
carries a query parameter `foo=bar` produces an authorize URL that also
contains `foo` — the produced query is not limited to the seven OAuth
parameters. -/
theorem authorizeURL_extra_param :
    Config.Validate exampleAuthCfg = .ok exampleAuthCfg ∧
    valuesGet "foo" (authorizeURLQuery exampleAuthCfg "test-state" "test-challenge") =
      some ["bar"] := ⟨rfl, rfl⟩

/-- C7 (amended): when the authorization URL carries no query string of its
own, the produced query holds exactly `response_type=code`, `client_id`,
`redirect_uri`, `state`, `scope` (present iff the scopes list is non-empty,
space-joined), `code_challenge` and `code_challenge_method=S256`, and
nothing else; pre-existing query parameters of the authorization URL are
otherwise preserved alongside. -/
theorem authorizeURLQuery_exact (cfg : Config) (state challenge : String)
    (h : rawQueryOf cfg.authURL = []) :
    authorizeURLQuery cfg state challenge =
      [("response_type", ["code"]), ("client_id", [cfg.clientID]),
       ("redirect_uri", [cfg.redirectURI]), ("state", [state])] ++
      (if cfg.scopes.length > 0 then
        [("scope", [String.intercalate " " cfg.scopes])] else []) ++
      [("code_challenge", [challenge]), ("code_challenge_method", ["S256"])] := by
  by_cases hs : cfg.scopes.length > 0 <;>
    simp [authorizeURLQuery, h, parseQueryChars, splitOnChar, valuesSet, hs]

/-- C7 witness: the amended claim at a concrete config with scopes. -/
theorem authorizeURLQuery_exact_witness :
    authorizeURLQuery
      { clientID := "test-client-id", clientSecret := "",
        authURL := "https://auth.example.com/authorize",
        tokenURL := "https://auth.example.com/token", scopes := ["read", "write"],
        redirectURI := "http://localhost:8080/callback", registrationEndpoint := "" }
      "test-state" "test-challenge" =
      [("response_type", ["code"]), ("client_id", ["test-client-id"]),
       ("redirect_uri", ["http://localhost:8080/callback"]), ("state", ["test-state"]),
       ("scope", ["read write"]),
       ("code_challenge", ["test-challenge"]), ("code_challenge_method", ["S256"])] := by
  have h := authorizeURLQuery_exact
    { clientID := "test-client-id", clientSecret := "",
      authURL := "https://auth.example.com/authorize",
      tokenURL := "https://auth.example.com/token", scopes := ["read", "write"],
      redirectURI := "http://localhost:8080/callback", registrationEndpoint := "" }
    "test-state" "test-challenge" rfl
  simpa using h

/-- C2: when the first forwarded attempt of `RoundTrip` returns 401, the
middleware closes that response body, makes exactly one `RefreshToken`
call, forwards a clone of the request exactly once more carrying the newly
refreshed access token, and returns the second response unmodified (even a
second 401) with no third attempt — the trace holds exactly two forwarded
attempts. -/
theorem roundTrip_401_retry (env : RTEnv) (sent t' : Token) (r1 : Resp) (rc : Nat)
    (hsend : RoundTrip env = sendPhase env sent rc)
    (h1 : env.baseOutcomes 0 = .ok r1)
    (h401 : r1.statusCode = 401)
    (hr : env.refreshOutcomes rc = .ok t') :
    (RoundTrip env).2.closedBodies = [r1.bodyId] ∧
    (RoundTrip env).2.refreshCount = rc + 1 ∧
    (RoundTrip env).2.bearers =
      ["Bearer " ++ sent.accessToken, "Bearer " ++ t'.accessToken] ∧
    (∀ r2 : Resp, env.baseOutcomes 1 = .ok r2 → (RoundTrip env).1 = .ok r2) := by
  rw [hsend]
  cases hb : env.baseOutcomes 1 with
  | error e =>
    refine ⟨?_, ?_, ?_, ?_⟩ <;>
      simp [sendPhase, h1, h401, hr, hb]
  | ok r2 =>
    refine ⟨?_, ?_, ?_, ?_⟩ <;>
      simp [sendPhase, h1, h401, hr, hb]

/-- C2 witness: the 401-retry contract at a concrete environment (valid
token, so no pre-send refresh) whose second attempt also returns 401. -/
theorem roundTrip_401_retry_witness :
    (RoundTrip rtEnvExample).2.closedBodies = [7] ∧
    (RoundTrip rtEnvExample).2.refreshCount = 0 + 1 ∧
    (RoundTrip rtEnvExample).2.bearers = ["Bearer tokA", "Bearer tokB"] ∧
    (RoundTrip rtEnvExample).1 = .ok ⟨401, 8⟩ := by
  have h := roundTrip_401_retry rtEnvExample ⟨"tokA", "", 0, 0⟩ ⟨"tokB", "", 0, 0⟩
    ⟨401, 7⟩ 0 rfl rfl rfl rfl
  exact ⟨h.1, h.2.1, h.2.2.1, h.2.2.2 ⟨401, 8⟩ rfl⟩

theorem doTokenRequest_not_expired (now : Int) (outcome : TokenReqOutcome) (t : Token)
    (h : doTokenRequest now outcome = .ok t) :
    t.IsExpired now = false := by
  cases outcome with
  | netError => exact absurd h (by simp [doTokenRequest])
  | response status parse =>
    by_cases hs : status = 200
    · subst hs
      cases parse with
      | none => exact absurd h (by simp [doTokenRequest])
      | some tr =>
        simp only [doTokenRequest, if_neg (by omega : ¬ (200 : Nat) ≠ 200),
          Except.ok.injEq] at h
        subst h
        simp only [Token.SetExpiresAt, Token.IsExpired]
        by_cases hp : tr.expiresIn > 0 <;> simp [hp] <;> omega
    · exact absurd h (by simp [doTokenRequest, hs])

theorem refreshToken_not_expired (now : Int) (outcome : TokenReqOutcome) (t : Token)
    (h : RefreshToken now outcome = .ok t) : t.IsExpired now = false :=
  doTokenRequest_not_expired now outcome t h

theorem loadOrRefresh_not_expired (p : ProviderState) (env : ProviderEnv)
    (t : Token) (p' : ProviderState) (fs' : FS)
    (h : loadOrRefreshStoredToken p env = (some t, p', fs')) :
    t.IsExpired env.now = false := by
  unfold loadOrRefreshStoredToken at h
  repeat' split at h
  all_goals simp_all
  all_goals (repeat' split at h)
  all_goals simp_all
  all_goals exact refreshToken_not_expired env.now env.refreshOutcome _ (by assumption)

theorem cachedValid_not_expired (p : ProviderState) (now : Int) (tc : Token)
    (h : cachedValid p now = some tc) : tc.IsExpired now = false := by
  unfold cachedValid at h
  repeat' split at h
  all_goals simp_all

/-- C1 counterexample: `EnsureToken` succeeds through the installed auth
function even when that function returns an already-expired token, so the
returned token reports `IsExpired` immediately after return. -/
theorem ensureToken_expired_via_authfn :
    ((EnsureToken
        { name := "m",
          config := { clientID := "cid", clientSecret := "", authURL := "",
                      tokenURL := "", scopes := [], redirectURI := "",
                      registrationEndpoint := "" },
          token := none }
        { now := 10, fs := ⟨true, .missing⟩, registerOutcome := .error (),
          refreshOutcome := .netError,
          authOutcome := some (.ok ⟨"atk", "", 0, 5⟩) }).toOption.map
      (fun r => r.1)) = some ⟨"atk", "", 0, 5⟩ ∧
    Token.IsExpired ⟨"atk", "", 0, 5⟩ 10 = true := ⟨rfl, rfl⟩

/-- C1 (amended): every token a successful `EnsureToken` returns through
the cached, stored or refresh path satisfies `!IsExpired` immediately after
return; through the auth-function path this holds provided the installed
auth function returns a non-expired token (the code adopts its result
without an expiry check). -/
theorem ensureToken_not_expired (p : ProviderState) (env : ProviderEnv)
    (t : Token) (p' : ProviderState) (fs' : FS)
    (h : EnsureToken p env = .ok (t, p', fs'))
    (hauth : ∀ t0, env.authOutcome = some (.ok t0) → t0.IsExpired env.now = false) :
    t.IsExpired env.now = false := by
  unfold EnsureToken at h
  repeat' split at h
  all_goals simp_all
  all_goals first
    | exact cachedValid_not_expired _ env.now _ (by assumption)
    | exact loadOrRefresh_not_expired _ env _ _ _ (by assumption)
    | exact hauth _ (by assumption)

/-- C1 witness: the amended claim at an environment whose auth function is
not installed and whose cache holds a valid (non-expiring) token. -/
theorem ensureToken_not_expired_witness :
    Token.IsExpired ⟨"a", "", 0, 0⟩ 5 = false := by
  refine ensureToken_not_expired
    { name := "m",
      config := { clientID := "cid", clientSecret := "", authURL := "", tokenURL := "",
                  scopes := [], redirectURI := "", registrationEndpoint := "" },
      token := some ⟨"a", "", 0, 0⟩ }
    { now := 5, fs := ⟨true, .missing⟩, registerOutcome := .error (),
      refreshOutcome := .netError, authOutcome := none }
    ⟨"a", "", 0, 0⟩ _ _ rfl ?_
  intro t0 hc
  exact Option.noConfusion hc

end Crush
